import Mathlib

/-!
Shallow embedding of the Stimela recipe execution engine
(stimela/recipe.py): the StimelaJob / Recipe data model, the
log2recipe step-record writer, and Recipe.run with its step
resolution, resume handling, redo rehydration, the execution loop and
failure capture.  External collaborators (container backends, the
caller's enclosing scope used for callable lookup on redo) are modelled
by a World parameter; the resume file is modelled by its parsed
content, and a run's writes to it by the persisted field of the result.
-/

/-- Outcome of invoking one job's backend or callable: the exception
class (if any) that the invocation raises back into the try block of
Recipe.run.  cabRuntimeError, recipeExecError and cabParamError are the
three classes caught by the recoverable except clause
(utils.StimelaCabRuntimeError, StimelaRecipeExecutionError,
StimelaCabParameterError); otherError is any other exception, which is
caught by the bare except clause. -/
inductive JobBehavior
  | ok
  | cabRuntimeError
  | recipeExecError
  | cabParamError
  | otherError
deriving Repr, DecidableEq

/-- The three exception classes listed in the recoverable except clause
of the run loop. -/
def JobBehavior.recoverable : JobBehavior → Bool
  | .cabRuntimeError | .recipeExecError | .cabParamError => true
  | .ok | .otherError => false

/-- The recorded top-level listing of a mounted input/MS directory
(the dict built from os.walk in the *_job methods). -/
structure DirContent where
  volume : String
  dirs : List String
  files : List String
deriving Repr, DecidableEq

/-- Modelled from the spec: the backend container payload (the
stimela.docker / singularity / udocker / podman Container classes live
outside the embedded source file).  It carries exactly the attributes
that recipe.py reads or writes on a container object: name, image,
volumes, environs, shared_memory, input_content, msdir_content, label
(only the docker backend constructor receives a label, hence optional)
and logfile. -/
structure ContainerData where
  name : String
  image : String
  volumes : List (String × String)
  environs : Option (List (String × String))
  shared_memory : Option String
  input_content : Option DirContent
  msdir_content : Option DirContent
  label : Option String
  logfile : String
deriving Repr, DecidableEq

/-- A python callable as seen by the engine: its __name__ and the
exception class (if any) that calling it raises. -/
structure PyFunc where
  fname : String
  behavior : JobBehavior
deriving Repr, DecidableEq

/-- The job attribute of a StimelaJob: either a backend container
object, or the dict built by python_job (callable plus keyword
arguments; parameters is None when no config was given). -/
inductive JobPayload
  | contP (c : ContainerData)
  | funcP (f : PyFunc) (parameters : Option (List (String × String)))
deriving Repr, DecidableEq

/-- A StimelaJob: the fields of recipe.py's StimelaJob that the run
loop, log2recipe and resume validation consult. -/
structure StimelaJob where
  name : String
  label : String
  jtype : String
  payload : JobPayload
deriving Repr, DecidableEq

/-- One entry of the persisted record's steps list.  log2recipe writes
the container shape (name, number, cab, volumes, environs,
shared_memory, input_content, msdir_content, label, logfile, status,
jtype) or the function shape (name, number, label, status, function,
jtype, parameters); fields absent from a shape are none. -/
structure StepRecord where
  name : String
  number : Int
  label : String
  status : String
  jtype : String
  cab : Option String := none
  volumes : List (String × String) := []
  environs : Option (List (String × String)) := none
  shared_memory : Option String := none
  input_content : Option DirContent := none
  msdir_content : Option DirContent := none
  logfile : Option String := none
  functionName : Option String := none
  parameters : Option (List (String × String)) := none
deriving Repr, DecidableEq

/-- The persisted JSON record: a name and a list of step entries. -/
structure RecipeRecord where
  name : String
  steps : List StepRecord
deriving Repr, DecidableEq

/-- One element of the steps argument of Recipe.run: python lets the
list mix integers and strings; run dispatches on the first element. -/
inductive StepVal
  | int (n : Int)
  | str (s : String)
deriving Repr, DecidableEq

/-- The external world: the outcome of running a backend container of a
given name, and the caller's enclosing scope used to look a stored
callable name up during redo rehydration. -/
structure World where
  contOutcome : String → JobBehavior
  callables : String → Option PyFunc

/-- How a call of Recipe.run ends.  pipelineException mirrors
PipelineException(completed, failed, remaining); recipeExecutionError
and cabParameterError mirror StimelaRecipeExecutionError and
StimelaCabParameterError raised before the loop; unhandledError is the
RuntimeError raised by the bare except clause; pyCrash is an uncaught
python-level error (its argument names the python exception class);
sysExit is sys.exit. -/
inductive RunOutcome
  | success
  | pipelineException (completed : List StimelaJob) (failed : StimelaJob)
      (remaining : List StimelaJob)
  | recipeExecutionError
  | cabParameterError (label : String)
  | unhandledError
  | pyCrash (kind : String)
  | sysExit (code : Nat)
deriving Repr, DecidableEq

/-- Observable result of one Recipe.run call: the (position, job) pairs
whose backend/callable was actually invoked, in invocation order; the
content written to the resume file (none when no write happened); and
the outcome. -/
structure RunResult where
  executed : List (Int × StimelaJob)
  persisted : Option RecipeRecord
  outcome : RunOutcome
deriving Repr, DecidableEq

/-- The Recipe state that run consults: its name, the ordered job list,
and the parsed content of the resume file (none models a missing
file, i.e. the IOError branch). -/
structure Recipe where
  name : String
  jobs : List StimelaJob
  resumeFileContent : Option RecipeRecord

/-- The container job kinds tested by `job.jtype in [...]`. -/
def containerKinds : List String := ["docker", "singularity", "udocker", "podman"]

/-- The characters of a string up to (excluding) the first occurrence
of the two-character separator "::". -/
def takeUntilSep : List Char → List Char
  | [] => []
  | ':' :: ':' :: _ => []
  | c :: rest => c :: takeUntilSep rest

/-- label.split('::')[0]: the part of a label before the first
"::" separator (the whole label when the separator does not occur). -/
def labelHead (s : String) : String :=
  String.mk (takeUntilSep s.data)

/-- The list `[job.label.split('::')[0] for job in self.jobs]`. -/
def jobsLabels (jobs : List StimelaJob) : List String :=
  jobs.map (fun j => labelHead j.label)

/-- python list.index: the first index at which x occurs, none when x
does not occur (the ValueError case). -/
def pyIndexOf : List String → String → Option Nat
  | [], _ => none
  | a :: l, x => if a = x then some 0 else (pyIndexOf l x).map (· + 1)

/-- python list subscription with negative-index wrap-around:
l[i] is l[len l + i] for negative i; out of range is none (the
IndexError case). -/
def pyIndex (l : List α) (i : Int) : Option α :=
  let j := if i < 0 then (l.length : Int) + i else i
  if 0 ≤ j then l.get? j.toNat else none

/-- The step dict log2recipe builds for one job, before appending it to
recipe['steps'].  Container kinds read the container payload (an
AttributeError, modelled as none, if the payload is the python_job
dict); the else branch reads the python_job dict (a TypeError, modelled
as none, if the payload is a container).  Note that the container shape
hardcodes jtype as "docker". -/
def stepOf (job : StimelaJob) (num : Int) (status : String) : Option StepRecord :=
  if containerKinds.contains job.jtype then
    match job.payload with
    | .contP cont => some
        { name := cont.name, number := num, cab := some cont.image,
          volumes := cont.volumes, environs := cont.environs,
          shared_memory := cont.shared_memory,
          input_content := cont.input_content,
          msdir_content := cont.msdir_content,
          label := cont.label.getD "", logfile := some cont.logfile,
          status := status, jtype := "docker" }
    | .funcP _ _ => none
  else
    match job.payload with
    | .funcP f params => some
        { name := job.name, number := num, label := job.label,
          status := status, functionName := some f.fname,
          jtype := "function", parameters := params }
    | .contP _ => none

/-- Recipe.log2recipe: build the step dict for (job, num, status) and
append it to recipe['steps']. -/
def log2recipe (job : StimelaJob) (recipe : RecipeRecord) (num : Int)
    (status : String) : Option RecipeRecord :=
  (stepOf job num status).map
    (fun st => { recipe with steps := recipe.steps ++ [st] })

/-- A job whose jtype agrees with its payload and whose parameters dict
is present when it is a python job: exactly the shape produced by
Recipe.add (and by redo rehydration of a record that stored
parameters).  Such a job neither crashes the dispatch in the run loop
nor crashes log2recipe. -/
def StimelaJob.wellFormed (j : StimelaJob) : Bool :=
  match j.payload with
  | .funcP _ p => j.jtype = "function" && p.isSome
  | .contP _ => containerKinds.contains j.jtype

/-- The behavior a job exhibits when it is invoked: a python job raises
what its callable raises, a container job what its backend reports. -/
def StimelaJob.behavior (w : World) (j : StimelaJob) : JobBehavior :=
  match j.payload with
  | .funcP f _ => f.behavior
  | .contP c => w.contOutcome c.name

/-- What happens to one job inside the try block of the run loop:
ran b — the backend/callable was invoked and behaved as b;
crashed — a python-level error (TypeError on function(**None), or an
attribute error from a jtype/payload mismatch) fired before any
invocation, to be caught by the bare except clause;
skipped — the jtype matches neither dispatch branch, so nothing is
invoked and control falls through to the completed log2recipe call. -/
inductive ExecStep
  | ran (b : JobBehavior)
  | crashed
  | skipped
deriving Repr, DecidableEq

/-- Dispatch of one loop iteration's try block over job.jtype, as in
run: the function branch, the container branch, or neither. -/
def StimelaJob.execStep (w : World) (j : StimelaJob) : ExecStep :=
  if j.jtype = "function" then
    match j.payload with
    | .funcP f (some _) => .ran f.behavior
    | .funcP _ none => .crashed
    | .contP _ => .crashed
  else if containerKinds.contains j.jtype then
    match j.payload with
    | .contP c => .ran (w.contOutcome c.name)
    | .funcP _ _ => .crashed
  else .skipped

/-- The `for step, jb in jobs[i+1:]` loop of the recoverable except
clause: append a remaining-status step record for every pair.  none
models a crash inside the except handler (not caught by the sibling
bare except clause). -/
def appendRemaining (rec : RecipeRecord) :
    List (Int × StimelaJob) → Option RecipeRecord
  | [] => some rec
  | (step, jb) :: rest =>
    match log2recipe jb rec step "remaining" with
    | some rec2 => appendRemaining rec2 rest
    | none => none

/-- The `for i, (step, job) in enumerate(jobs)` execution loop of
Recipe.run.  done is jobs[:i], rest is jobs[i:], executed accumulates
the invoked pairs in reverse.  On success of a job a completed step
record is appended and the loop continues; on a recoverable error the
failed and remaining step records are appended, the record is persisted
and a PipelineException with (completed, failed, remaining) =
(jobs[:i], job, jobs[i+1:]) is raised; on any other error the bare
except clause raises the unhandled RuntimeError without persisting.
After a full pass the record is persisted and run returns 0. -/
def runLoop (w : World) : RecipeRecord → List (Int × StimelaJob) →
    List (Int × StimelaJob) → List (Int × StimelaJob) → RunResult
  | rec, _, [], executed => ⟨executed.reverse, some rec, .success⟩
  | rec, done, (step, job) :: rest, executed =>
    match job.execStep w with
    | .crashed => ⟨executed.reverse, none, .unhandledError⟩
    | .skipped =>
      match log2recipe job rec step "completed" with
      | some rec2 => runLoop w rec2 (done ++ [(step, job)]) rest executed
      | none => ⟨executed.reverse, none, .unhandledError⟩
    | .ran b =>
      match b with
      | .ok =>
        match log2recipe job rec step "completed" with
        | some rec2 =>
          runLoop w rec2 (done ++ [(step, job)]) rest ((step, job) :: executed)
        | none => ⟨((step, job) :: executed).reverse, none, .unhandledError⟩
      | .otherError => ⟨((step, job) :: executed).reverse, none, .unhandledError⟩
      | .cabRuntimeError | .recipeExecError | .cabParamError =>
        match log2recipe job rec step "failed" with
        | none => ⟨((step, job) :: executed).reverse, none, .pyCrash "AttributeError"⟩
        | some rec2 =>
          match appendRemaining rec2 rest with
          | none => ⟨((step, job) :: executed).reverse, none, .pyCrash "AttributeError"⟩
          | some rec3 =>
            ⟨((step, job) :: executed).reverse, some rec3,
             .pipelineException (done.map Prod.snd) job (rest.map Prod.snd)⟩

/-- The label-resolution loop of run: for each element of steps,
labels.index(step) + 1; an element not found in labels (every integer
element in particular) raises StimelaCabParameterError naming it. -/
def resolveLabels (labels : List String) :
    List StepVal → Except RunOutcome (List StepVal)
  | [] => .ok []
  | .str s :: rest =>
    match pyIndexOf labels s with
    | some i =>
      match resolveLabels labels rest with
      | .ok t => .ok (.int ((i : Int) + 1) :: t)
      | .error o => .error o
    | none => .error (.cabParameterError s)
  | .int n :: _ => .error (.cabParameterError (toString n))

/-- Step resolution of run: steps absent means range(1, N+1); an empty
list raises IndexError at steps[0]; a list whose first element is a
string goes through label resolution; a list whose first element is an
integer is taken verbatim. -/
def resolveSteps (jobs : List StimelaJob) :
    Option (List StepVal) → Except RunOutcome (List StepVal)
  | none => .ok ((List.range jobs.length).map (fun i => .int ((i : Int) + 1)))
  | some [] => .error (.pyCrash "IndexError")
  | some (first :: rest) =>
    match first with
    | .str _ => resolveLabels (jobsLabels jobs) (first :: rest)
    | .int _ => .ok (first :: rest)

/-- The pair comprehension `[(step, self.jobs[step-1]) for step in
steps]`: subscription of the job list at step-1 for each element, with
python index semantics; a string element at this point is a TypeError,
an out-of-range index an IndexError. -/
def buildPairs (jobs : List StimelaJob) :
    List StepVal → Except String (List (Int × StimelaJob))
  | [] => .ok []
  | .int n :: rest =>
    match pyIndex jobs (n - 1) with
    | some j =>
      match buildPairs jobs rest with
      | .ok l => .ok ((n, j) :: l)
      | .error e => .error e
    | none => .error "IndexError"
  | .str _ :: _ => .error "TypeError"

/-- The tail of Recipe.run shared by all three entry modes: resolve the
steps argument against the (possibly rebuilt) job list, build the
(position, job) pairs, and run the execution loop over the given
starting record. -/
def runResolved (w : World) (jobs : List StimelaJob) (rec : RecipeRecord)
    (steps0 : Option (List StepVal)) : RunResult :=
  match resolveSteps jobs steps0 with
  | .error o => ⟨[], none, o⟩
  | .ok vals =>
    match buildPairs jobs vals with
    | .error k => ⟨[], none, .pyCrash k⟩
    | .ok pairs => runLoop w rec [] pairs []

/-- The resume loop of run over the loaded record's steps: completed
steps are kept verbatim (appended to the fresh record), every other
step has its label checked against self.jobs[number-1].label — a
mismatch raises StimelaRecipeExecutionError, a match appends its number
to the re-execution list. -/
def resumePartition (jobs : List StimelaJob) :
    List StepRecord → List StepRecord → List Int →
    Except RunOutcome (List StepRecord × List Int)
  | [], kept, nums => .ok (kept, nums)
  | s :: rest, kept, nums =>
    if s.status = "completed" then
      resumePartition jobs rest (kept ++ [s]) nums
    else
      match pyIndex jobs (s.number - 1) with
      | none => .error (.pyCrash "IndexError")
      | some j =>
        if s.label = j.label then
          resumePartition jobs rest kept (nums ++ [s.number])
        else .error .recipeExecutionError

/-- Redo rehydration: rebuild the in-memory job list from the loaded
record's steps.  A step of jtype "docker" becomes a container job with
the stored fields (a missing cab or logfile key is a KeyError); a step
of jtype "function" resolves its stored callable name in the caller's
scope (a miss is a KeyError); any other jtype leaves the loop variable
unbound (a NameError on the first iteration). -/
def rebuildJobs (w : World) : List StepRecord → Except String (List StimelaJob)
  | [] => .ok []
  | s :: rest =>
    if s.jtype = "docker" then
      match s.cab, s.logfile with
      | some img, some lf =>
        let cont : ContainerData :=
          ⟨s.name, img, s.volumes, s.environs, s.shared_memory,
           s.input_content, s.msdir_content, some s.label, lf⟩
        match rebuildJobs w rest with
        | .ok l => .ok (⟨s.name, s.label, "docker", .contP cont⟩ :: l)
        | .error e => .error e
      | _, _ => .error "KeyError"
    else if s.jtype = "function" then
      match s.functionName with
      | some fn =>
        match w.callables fn with
        | some f =>
          match rebuildJobs w rest with
          | .ok l => .ok (⟨s.name, s.label, "function", .funcP f s.parameters⟩ :: l)
          | .error e => .error e
        | none => .error "KeyError"
      | none => .error "KeyError"
    else .error "NameError"

/-- Recipe.run(steps, resume, redo).  redo loads the given record,
rebuilds the job list from it and keeps the loaded record (its steps
included) as the record the loop appends to; resume loads the resume
file (missing file raises StimelaRecipeExecutionError), partitions its
steps, exits via sys.exit(0) when nothing is left to re-run, and
otherwise replaces the caller's steps argument with the collected step
numbers; a plain run starts from an empty record.  All three modes end
in the shared resolve-and-loop tail. -/
def Recipe.run (w : World) (r : Recipe) (steps0 : Option (List StepVal))
    (resume : Bool) (redo : Option RecipeRecord) : RunResult :=
  match redo with
  | some loaded =>
    match rebuildJobs w loaded.steps with
    | .error k => ⟨[], none, .pyCrash k⟩
    | .ok jobs2 => runResolved w jobs2 loaded steps0
  | none =>
    if resume then
      match r.resumeFileContent with
      | none => ⟨[], none, .recipeExecutionError⟩
      | some loaded =>
        match resumePartition r.jobs loaded.steps [] [] with
        | .error o => ⟨[], none, o⟩
        | .ok (kept, nums) =>
          if nums.isEmpty then ⟨[], none, .sysExit 0⟩
          else runResolved w r.jobs ⟨loaded.name, kept⟩ (some (nums.map StepVal.int))
    else runResolved w r.jobs ⟨r.name, []⟩ steps0

/-- A steps element that label resolution sends to a position: a string
that occurs in the given label list.  (Integer elements always raise,
since an integer never equals a string under python equality.) -/
def resolvableStr (labels : List String) : StepVal → Bool
  | .str s1 => (pyIndexOf labels s1).isSome
  | .int _ => false

/-! ### Concrete fixtures used by witnesses and counterexamples -/

/-- A world in which every backend container succeeds and the caller's
scope resolves every callable name to a succeeding callable. -/
def wAllOk : World := ⟨fun _ => .ok, fun n => some ⟨n, .ok⟩⟩

def jobA : StimelaJob := ⟨"a", "A", "function", .funcP ⟨"fa", .ok⟩ (some [])⟩

def jobBFail : StimelaJob := ⟨"b", "B", "function", .funcP ⟨"fb", .cabRuntimeError⟩ (some [])⟩

def jobBOk : StimelaJob := ⟨"b", "B", "function", .funcP ⟨"fb2", .ok⟩ (some [])⟩

def jobC : StimelaJob := ⟨"c", "C", "function", .funcP ⟨"fc", .ok⟩ (some [])⟩

def jobParamFail : StimelaJob := ⟨"p", "P", "function", .funcP ⟨"fp", .cabParamError⟩ (some [])⟩

def contSing : ContainerData := ⟨"scont", "img", [], none, none, none, none, some "S", "lf"⟩

def jobSing : StimelaJob := ⟨"s", "S", "singularity", .contP contSing⟩

/-- A three-step recipe whose second job fails with a recoverable
error. -/
def recipeABC : Recipe := ⟨"r", [jobA, jobBFail, jobC], none⟩

/-- A one-step recipe whose job raises StimelaCabParameterError. -/
def recipeParam : Recipe := ⟨"r", [jobParamFail], none⟩

/-- A persisted record of a failed three-step run: step 1 completed,
steps 2 and 3 still to do. -/
def loadedRec : RecipeRecord :=
  ⟨"r", [{ name := "a", number := 1, label := "A", status := "completed", jtype := "function",
           functionName := some "fa", parameters := some [] },
         { name := "b", number := 2, label := "B", status := "failed", jtype := "function",
           functionName := some "fb", parameters := some [] },
         { name := "c", number := 3, label := "C", status := "remaining", jtype := "function",
           functionName := some "fc", parameters := some [] }]⟩

/-- The three-step recipe with a resume file from the failed run and a
now-succeeding second job. -/
def recipeResume : Recipe := ⟨"r", [jobA, jobBOk, jobC], some loadedRec⟩

/-- The same resume file against a job list whose second job now has a
different label. -/
def recipeEdited : Recipe :=
  ⟨"r", [jobA, ⟨"z", "Z", "function", .funcP ⟨"fz", .ok⟩ (some [])⟩, jobC], some loadedRec⟩

/-- A resume file in which every step is completed. -/
def loadedAllDone : RecipeRecord :=
  ⟨"r", [{ name := "a", number := 1, label := "A", status := "completed", jtype := "function" },
         { name := "b", number := 2, label := "B", status := "completed", jtype := "function" }]⟩

def recipeDone : Recipe := ⟨"r", [jobA, jobBOk], some loadedAllDone⟩

/-- An old persisted record of two container steps, as fed to redo. -/
def redoRec : RecipeRecord :=
  ⟨"old", [{ name := "x", number := 1, label := "X", status := "completed", jtype := "docker",
             cab := some "img1", logfile := some "lx" },
           { name := "y", number := 2, label := "Y", status := "failed", jtype := "docker",
             cab := some "img2", logfile := some "ly" }]⟩

/-- The job list that redo rehydration rebuilds from redoRec. -/
def redoJobs : List StimelaJob :=
  [⟨"x", "X", "docker", .contP ⟨"x", "img1", [], none, none, none, none, some "X", "lx"⟩⟩,
   ⟨"y", "Y", "docker", .contP ⟨"y", "img2", [], none, none, none, none, some "Y", "ly"⟩⟩]

/-- The step record log2recipe writes for jobSing with number 1 and
status completed. -/
def stepSingOut : StepRecord :=
  { name := "scont", number := 1, label := "S", status := "completed",
    jtype := "docker", cab := some "img", logfile := some "lf" }

def recSingOut : RecipeRecord := ⟨"r", [stepSingOut]⟩

/-- Two jobs sharing the label head "L" before the separator, plus a
third distinct one. -/
def recipeDupLabels : Recipe :=
  ⟨"r", [⟨"d1", "L::1", "function", .funcP ⟨"f1", .ok⟩ (some [])⟩,
         ⟨"d2", "L::2", "function", .funcP ⟨"f2", .ok⟩ (some [])⟩,
         ⟨"d3", "M", "function", .funcP ⟨"f3", .ok⟩ (some [])⟩], none⟩

/-! ### Basic lemmas about the step-record writer and job dispatch -/

theorem contains_function_false : containerKinds.contains "function" = false := by
  decide

theorem wellFormed_funcP (j : StimelaJob) (f : PyFunc)
    (p : Option (List (String × String))) (hp : j.payload = .funcP f p)
    (h : j.wellFormed = true) : j.jtype = "function" ∧ ∃ x, p = some x := by
  unfold StimelaJob.wellFormed at h
  rw [hp] at h
  rcases p with _ | x
  · simp at h
  · simp at h
    exact ⟨h, x, rfl⟩

theorem wellFormed_contP (j : StimelaJob) (c : ContainerData)
    (hp : j.payload = .contP c) (h : j.wellFormed = true) :
    containerKinds.contains j.jtype = true := by
  unfold StimelaJob.wellFormed at h
  rw [hp] at h
  exact h

theorem stepOf_of_wellFormed (j : StimelaJob) (num : Int) (status : String)
    (h : j.wellFormed = true) :
    ∃ st, stepOf j num status = some st ∧ st.status = status ∧ st.number = num := by
  unfold stepOf
  cases hp : j.payload with
  | contP c =>
    have hc := wellFormed_contP j c hp h
    rw [if_pos hc]
    exact ⟨_, rfl, rfl, rfl⟩
  | funcP f p =>
    obtain ⟨hjt, _⟩ := wellFormed_funcP j f p hp h
    have hc : ¬ containerKinds.contains j.jtype = true := by
      rw [hjt, contains_function_false]
      exact Bool.false_ne_true
    rw [if_neg hc]
    exact ⟨_, rfl, rfl, rfl⟩

theorem log2recipe_of_stepOf (j : StimelaJob) (rec : RecipeRecord) (num : Int)
    (status : String) (st : StepRecord) (h : stepOf j num status = some st) :
    log2recipe j rec num status = some { rec with steps := rec.steps ++ [st] } := by
  simp [log2recipe, h]

theorem execStep_of_wellFormed (w : World) (j : StimelaJob)
    (h : j.wellFormed = true) : j.execStep w = .ran (j.behavior w) := by
  unfold StimelaJob.execStep StimelaJob.behavior
  cases hp : j.payload with
  | contP c =>
    have hc := wellFormed_contP j c hp h
    have hne : ¬ j.jtype = "function" := by
      intro he
      rw [he, contains_function_false] at hc
      exact Bool.false_ne_true hc
    rw [if_neg hne, if_pos hc]
  | funcP f p =>
    obtain ⟨hjt, x, hx⟩ := wellFormed_funcP j f p hp h
    subst hx
    rw [if_pos hjt]

/-! ### Lemmas about the execution loop -/

theorem appendRemaining_of_wellFormed (rest : List (Int × StimelaJob)) :
    ∀ rec : RecipeRecord, (∀ q ∈ rest, (q.2).wellFormed = true) →
    ∃ rec2, appendRemaining rec rest = some rec2 ∧
      rec2.steps.map (fun st => st.status)
        = rec.steps.map (fun st => st.status)
          ++ List.replicate rest.length "remaining" := by
  induction rest with
  | nil =>
    intro rec _
    exact ⟨rec, rfl, by simp⟩
  | cons q rest ih =>
    intro rec hwf
    obtain ⟨step, jb⟩ := q
    obtain ⟨st, hst, hstatus, _⟩ :=
      stepOf_of_wellFormed jb step "remaining" (hwf (step, jb) (by simp))
    obtain ⟨rec2, hrec2, hmap⟩ :=
      ih { rec with steps := rec.steps ++ [st] } (fun q hq => hwf q (by simp [hq]))
    refine ⟨rec2, ?_, ?_⟩
    · simp only [appendRemaining,
        log2recipe_of_stepOf jb rec step "remaining" st hst]
      exact hrec2
    · rw [hmap]
      simp [hstatus, List.replicate_succ]

theorem runLoop_all_ok (w : World) (rest : List (Int × StimelaJob)) :
    ∀ (rec : RecipeRecord) (done executed : List (Int × StimelaJob)),
    (∀ q ∈ rest, (q.2).wellFormed = true ∧ (q.2).behavior w = .ok) →
    ∃ recFin, runLoop w rec done rest executed
        = ⟨executed.reverse ++ rest, some recFin, .success⟩ ∧
      recFin.steps.map (fun st => st.status)
        = rec.steps.map (fun st => st.status)
          ++ List.replicate rest.length "completed" := by
  induction rest with
  | nil =>
    intro rec done executed _
    exact ⟨rec, by simp [runLoop], by simp⟩
  | cons q rest ih =>
    intro rec done executed hwf
    obtain ⟨step, job⟩ := q
    obtain ⟨hwf1, hok1⟩ := hwf (step, job) (by simp)
    obtain ⟨st, hst, hstatus, _⟩ := stepOf_of_wellFormed job step "completed" hwf1
    obtain ⟨recFin, hrun, hmap⟩ :=
      ih { rec with steps := rec.steps ++ [st] } (done ++ [(step, job)])
        ((step, job) :: executed) (fun q hq => hwf q (by simp [hq]))
    refine ⟨recFin, ?_, ?_⟩
    · simp [runLoop, execStep_of_wellFormed w job hwf1, hok1,
        log2recipe_of_stepOf job rec step "completed" st hst, hrun]
    · rw [hmap]
      simp [hstatus, List.replicate_succ]

theorem runLoop_fails (w : World) (pre : List (Int × StimelaJob)) :
    ∀ (rec : RecipeRecord) (done executed : List (Int × StimelaJob))
      (p : Int) (jf : StimelaJob) (post : List (Int × StimelaJob)),
    (∀ q ∈ pre, (q.2).wellFormed = true ∧ (q.2).behavior w = .ok) →
    jf.wellFormed = true → (jf.behavior w).recoverable = true →
    (∀ q ∈ post, (q.2).wellFormed = true) →
    ∃ recFin, runLoop w rec done (pre ++ (p, jf) :: post) executed
        = ⟨executed.reverse ++ pre ++ [(p, jf)], some recFin,
           .pipelineException ((done ++ pre).map Prod.snd) jf (post.map Prod.snd)⟩ ∧
      recFin.steps.map (fun st => st.status)
        = rec.steps.map (fun st => st.status)
          ++ (List.replicate pre.length "completed"
              ++ "failed" :: List.replicate post.length "remaining") := by
  induction pre with
  | nil =>
    intro rec done executed p jf post _ hf hfrec hpost
    obtain ⟨st, hst, hstatus, _⟩ := stepOf_of_wellFormed jf p "failed" hf
    obtain ⟨rec2, hrem, hremmap⟩ :=
      appendRemaining_of_wellFormed post { rec with steps := rec.steps ++ [st] } hpost
    refine ⟨rec2, ?_, ?_⟩
    · cases hb : jf.behavior w with
      | ok => rw [hb] at hfrec; exact absurd hfrec (by decide)
      | otherError => rw [hb] at hfrec; exact absurd hfrec (by decide)
      | cabRuntimeError =>
        simp [runLoop, execStep_of_wellFormed w jf hf, hb,
          log2recipe_of_stepOf jf rec p "failed" st hst, hrem]
      | recipeExecError =>
        simp [runLoop, execStep_of_wellFormed w jf hf, hb,
          log2recipe_of_stepOf jf rec p "failed" st hst, hrem]
      | cabParamError =>
        simp [runLoop, execStep_of_wellFormed w jf hf, hb,
          log2recipe_of_stepOf jf rec p "failed" st hst, hrem]
    · rw [hremmap]
      simp [hstatus]
  | cons q pre ih =>
    intro rec done executed p jf post hpre hf hfrec hpost
    obtain ⟨step, job⟩ := q
    obtain ⟨hwf1, hok1⟩ := hpre (step, job) (by simp)
    obtain ⟨st, hst, hstatus, _⟩ := stepOf_of_wellFormed job step "completed" hwf1
    obtain ⟨recFin, hrun, hmap⟩ :=
      ih { rec with steps := rec.steps ++ [st] } (done ++ [(step, job)])
        ((step, job) :: executed) p jf post (fun q hq => hpre q (by simp [hq]))
        hf hfrec hpost
    refine ⟨recFin, ?_, ?_⟩
    · simp [runLoop, execStep_of_wellFormed w job hwf1, hok1,
        log2recipe_of_stepOf job rec step "completed" st hst, hrun]
    · rw [hmap]
      simp [hstatus, List.replicate_succ]

/-! ### Lemmas about resume partitioning, label resolution and indexing -/

theorem resumePartition_all_completed (jobs : List StimelaJob)
    (steps : List StepRecord) :
    ∀ kept nums, (∀ s ∈ steps, s.status = "completed") →
    resumePartition jobs steps kept nums = .ok (kept ++ steps, nums) := by
  induction steps with
  | nil =>
    intro kept nums _
    simp [resumePartition]
  | cons s rest ih =>
    intro kept nums hall
    have hs := hall s (by simp)
    simp only [resumePartition, if_pos hs]
    rw [ih (kept ++ [s]) nums (fun t ht => hall t (by simp [ht]))]
    simp

theorem resumePartition_mismatch (jobs : List StimelaJob)
    (steps : List StepRecord) :
    ∀ kept nums,
    (∀ s ∈ steps, s.status ≠ "completed" →
        (pyIndex jobs (s.number - 1)).isSome = true) →
    (∃ s ∈ steps, s.status ≠ "completed" ∧
        (pyIndex jobs (s.number - 1)).map (fun j => j.label) ≠ some s.label) →
    resumePartition jobs steps kept nums = .error .recipeExecutionError := by
  induction steps with
  | nil =>
    intro kept nums _ hmis
    simp at hmis
  | cons s rest ih =>
    intro kept nums hrange hmis
    by_cases hc : s.status = "completed"
    · simp only [resumePartition, if_pos hc]
      refine ih (kept ++ [s]) nums (fun t ht => hrange t (by simp [ht])) ?_
      obtain ⟨t, htmem, htprop⟩ := hmis
      rcases List.mem_cons.mp htmem with rfl | htmem2
      · exact absurd hc htprop.1
      · exact ⟨t, htmem2, htprop⟩
    · obtain ⟨j, hj⟩ := Option.isSome_iff_exists.mp (hrange s (by simp) hc)
      simp only [resumePartition, if_neg hc, hj]
      by_cases hl : s.label = j.label
      · simp only [if_pos hl]
        refine ih kept (nums ++ [s.number]) (fun t ht => hrange t (by simp [ht])) ?_
        obtain ⟨t, htmem, htprop⟩ := hmis
        rcases List.mem_cons.mp htmem with rfl | htmem2
        · rw [hj] at htprop
          simp [hl] at htprop
        · exact ⟨t, htmem2, htprop⟩
      · simp [if_neg hl]

theorem pyIndexOf_get (l : List String) (x : String) :
    ∀ i, pyIndexOf l x = some i → l.get? i = some x := by
  induction l with
  | nil =>
    intro i h
    simp [pyIndexOf] at h
  | cons a l ih =>
    intro i h
    simp only [pyIndexOf] at h
    by_cases hax : a = x
    · rw [if_pos hax] at h
      injection h with h
      subst h
      simp [hax]
    · rw [if_neg hax] at h
      rcases hopt : pyIndexOf l x with _ | i0
      · rw [hopt] at h
        simp at h
      · rw [hopt] at h
        simp at h
        subst h
        simpa using ih i0 hopt

theorem pyIndexOf_first (l : List String) (x : String) :
    ∀ i, pyIndexOf l x = some i → ∀ m, m < i → l.get? m ≠ some x := by
  induction l with
  | nil =>
    intro i h
    simp [pyIndexOf] at h
  | cons a l ih =>
    intro i h m hm
    simp only [pyIndexOf] at h
    by_cases hax : a = x
    · rw [if_pos hax] at h
      injection h with h
      omega
    · rw [if_neg hax] at h
      rcases hopt : pyIndexOf l x with _ | i0
      · rw [hopt] at h
        simp at h
      · rw [hopt] at h
        simp at h
        subst h
        cases m with
        | zero => simpa using hax
        | succ m0 => simpa using ih i0 hopt m0 (by omega)

theorem resolveLabels_err (labels : List String) (s : String)
    (h2 : pyIndexOf labels s = none) :
    ∀ L1 L2, (∀ v ∈ L1, resolvableStr labels v = true) →
    resolveLabels labels (L1 ++ StepVal.str s :: L2)
      = .error (.cabParameterError s) := by
  intro L1
  induction L1 with
  | nil =>
    intro L2 _
    simp [resolveLabels, h2]
  | cons v L1 ih =>
    intro L2 h1
    have hv := h1 v (by simp)
    cases v with
    | int n => simp [resolvableStr] at hv
    | str s1 =>
      obtain ⟨i, hi⟩ := Option.isSome_iff_exists.mp (by simpa [resolvableStr] using hv)
      simp only [List.cons_append, resolveLabels, hi, List.append_eq]
      rw [ih L2 (fun t ht => h1 t (by simp [ht]))]

theorem resolveLabels_get (labels : List String) (s : String) (i0 : Nat)
    (hfirst : pyIndexOf labels s = some i0) :
    ∀ L vals k, resolveLabels labels L = .ok vals →
    L.get? k = some (.str s) → vals.get? k = some (.int ((i0 : Int) + 1)) := by
  intro L
  induction L with
  | nil =>
    intro vals k _ hk
    simp at hk
  | cons v L ih =>
    intro vals k h hk
    cases v with
    | int n => simp [resolveLabels] at h
    | str a =>
      simp only [resolveLabels] at h
      rcases hopt : pyIndexOf labels a with _ | ia
      · rw [hopt] at h
        simp at h
      · rw [hopt] at h
        rcases hres : resolveLabels labels L with o | t
        · rw [hres] at h
          simp at h
        · rw [hres] at h
          simp at h
          subst h
          cases k with
          | zero =>
            simp at hk
            subst hk
            rw [hopt] at hfirst
            injection hfirst with hii
            subst hii
            simp
          | succ k0 =>
            simpa using ih t k0 hres (by simpa using hk)

theorem pyIndex_mem (l : List α) (i : Int) (a : α)
    (h : pyIndex l i = some a) : a ∈ l := by
  simp only [pyIndex] at h
  split at h
  · split at h
    · exact List.get?_mem h
    · simp at h
  · split at h
    · exact List.get?_mem h
    · simp at h

theorem pyIndex_of_range (l : List α) (n : Int) (h1 : 1 ≤ n)
    (h2 : n ≤ (l.length : Int)) : ∃ a, pyIndex l (n - 1) = some a := by
  have h0 : ¬ (n - 1 < 0) := by omega
  have h3 : (0 : Int) ≤ n - 1 := by omega
  have h4 : (n - 1).toNat < l.length := by omega
  refine ⟨l.get ⟨(n - 1).toNat, h4⟩, ?_⟩
  simp only [pyIndex, if_neg h0, if_pos h3]
  exact List.get?_eq_get h4

theorem buildPairs_ints (jobs : List StimelaJob) (S : List Int) :
    (∀ n ∈ S, ∃ j, pyIndex jobs (n - 1) = some j) →
    ∃ pairs, buildPairs jobs (S.map StepVal.int) = .ok pairs ∧
      pairs.map Prod.fst = S ∧
      ∀ q ∈ pairs, pyIndex jobs (q.1 - 1) = some q.2 := by
  induction S with
  | nil =>
    intro _
    exact ⟨[], rfl, rfl, by simp⟩
  | cons n S ih =>
    intro h
    obtain ⟨j, hj⟩ := h n (by simp)
    obtain ⟨pairs, hp, hfst, hmem⟩ := ih (fun m hm => h m (by simp [hm]))
    refine ⟨(n, j) :: pairs, ?_, by simp [hfst], ?_⟩
    · simp only [List.map_cons, buildPairs, hj, hp]
    · intro q hq
      rcases List.mem_cons.mp hq with rfl | hq2
      · exact hj
      · exact hmem q hq2

/-! ### Unfolding helper for the plain entry mode -/

theorem run_plain (w : World) (r : Recipe) (steps0 : Option (List StepVal)) :
    Recipe.run w r steps0 false none
      = runResolved w r.jobs ⟨r.name, []⟩ steps0 := rfl

/-! ### Claims -/

/-- C1: when the job at resolved position k fails with a recoverable
error during run, the raised PipelineException carries completed = the
resolved jobs before k, failed = the job at k, remaining = the resolved
jobs after k — a partition of the resolved (position, job) list, not of
the full recipe — and the persisted record holds exactly one step entry
per resolved pair, with statuses completed/failed/remaining in those
positions (hence exactly N entries when all N jobs were resolved). -/
theorem run_c1_failure_envelope (w : World) (r : Recipe)
    (steps0 : Option (List StepVal)) (vals : List StepVal)
    (pre post : List (Int × StimelaJob)) (p : Int) (jf : StimelaJob)
    (hres : resolveSteps r.jobs steps0 = .ok vals)
    (hpairs : buildPairs r.jobs vals = .ok (pre ++ (p, jf) :: post))
    (hpre : ∀ q ∈ pre, (q.2).wellFormed = true ∧ (q.2).behavior w = .ok)
    (hf : jf.wellFormed = true)
    (hfb : (jf.behavior w).recoverable = true)
    (hpost : ∀ q ∈ post, (q.2).wellFormed = true) :
    ∃ recFin,
      Recipe.run w r steps0 false none
        = ⟨pre ++ [(p, jf)], some recFin,
           .pipelineException (pre.map Prod.snd) jf (post.map Prod.snd)⟩ ∧
      recFin.steps.map (fun st => st.status)
        = List.replicate pre.length "completed"
          ++ "failed" :: List.replicate post.length "remaining" ∧
      recFin.steps.length = pre.length + 1 + post.length := by
  obtain ⟨recFin, hrun, hmap⟩ :=
    runLoop_fails w pre ⟨r.name, []⟩ [] [] p jf post hpre hf hfb hpost
  refine ⟨recFin, ?_, ?_, ?_⟩
  · rw [run_plain]
    simp only [runResolved, hres, hpairs]
    rw [hrun]
    simp
  · rw [hmap]
    simp
  · have hlen := congrArg List.length hmap
    simp at hlen
    omega

/-- C1 witness: the three-job recipe whose second job fails. -/
theorem run_c1_failure_envelope_witness :
    ∃ recFin,
      Recipe.run wAllOk recipeABC none false none
        = ⟨[(1, jobA), (2, jobBFail)], some recFin,
           .pipelineException [jobA] jobBFail [jobC]⟩ ∧
      recFin.steps.map (fun st => st.status)
        = ["completed", "failed", "remaining"] ∧
      recFin.steps.length = 3 := by
  obtain ⟨recFin, h1, h2, h3⟩ :=
    run_c1_failure_envelope wAllOk recipeABC none [.int 1, .int 2, .int 3]
      [(1, jobA)] [(3, jobC)] 2 jobBFail rfl rfl
      (by decide) (by decide) (by decide) (by decide)
  exact ⟨recFin, by simpa using h1, by simpa using h2, by simpa using h3⟩

/-- C2: on run(resume=true), when some non-completed step of the loaded
record has a recorded label that differs from the label of the job at
the same position of the in-memory job list (and the recorded positions
of non-completed steps are all in range), run raises
StimelaRecipeExecutionError, persists nothing, and executes no job —
for any caller-supplied steps argument. -/
theorem run_c2_resume_flow_changed (w : World) (r : Recipe)
    (loaded : RecipeRecord) (steps0 : Option (List StepVal))
    (hfile : r.resumeFileContent = some loaded)
    (hrange : ∀ s ∈ loaded.steps, s.status ≠ "completed" →
        (pyIndex r.jobs (s.number - 1)).isSome = true)
    (hmis : ∃ s ∈ loaded.steps, s.status ≠ "completed" ∧
        (pyIndex r.jobs (s.number - 1)).map (fun j => j.label) ≠ some s.label) :
    Recipe.run w r steps0 true none = ⟨[], none, .recipeExecutionError⟩ := by
  have hpart := resumePartition_mismatch r.jobs loaded.steps [] [] hrange hmis
  simp [Recipe.run, hfile, hpart]

/-- C2 witness: resuming loadedRec against a job list whose second job
now carries label Z instead of the recorded B. -/
theorem run_c2_resume_flow_changed_witness :
    Recipe.run wAllOk recipeEdited (some [.int 1]) true none
      = ⟨[], none, .recipeExecutionError⟩ :=
  run_c2_resume_flow_changed wAllOk recipeEdited loadedRec (some [.int 1])
    (by decide) (by decide) (by decide)

/-- C3 counterexample: a job failing with StimelaCabParameterError (a
parameter error, not a runtime error) does trigger the
completed/failed/remaining snapshot and the resume-file persistence,
contradicting the claim that a runtime error is the only kind that
does. -/
theorem run_c3_counterexample :
    (Recipe.run wAllOk recipeParam none false none).outcome
      = .pipelineException [] jobParamFail [] ∧
    ((Recipe.run wAllOk recipeParam none false none).persisted).isSome = true := by
  decide

/-- C3 amended: for a single well-formed job, the failure snapshot (a
PipelineException outcome) together with resume-file persistence occurs
exactly when the job's execution reports one of the three recoverable
error kinds — cab runtime error, recipe execution error, or cab
parameter error — not only on runtime errors. -/
theorem run_c3_amended (w : World) (nm : String) (fc : Option RecipeRecord)
    (j : StimelaJob) (hwf : j.wellFormed = true) :
    (((Recipe.run w ⟨nm, [j], fc⟩ none false none).outcome
        = .pipelineException [] j []) ∧
      ((Recipe.run w ⟨nm, [j], fc⟩ none false none).persisted).isSome = true)
    ↔ (j.behavior w).recoverable = true := by
  have hplain : Recipe.run w ⟨nm, [j], fc⟩ none false none
      = runLoop w ⟨nm, []⟩ [] [(1, j)] [] := rfl
  rw [hplain]
  have hexec := execStep_of_wellFormed w j hwf
  cases hb : j.behavior w with
  | ok =>
    obtain ⟨st, hst, _, _⟩ := stepOf_of_wellFormed j 1 "completed" hwf
    rw [hb] at hexec
    simp [runLoop, hexec, log2recipe_of_stepOf j ⟨nm, []⟩ 1 "completed" st hst,
      JobBehavior.recoverable]
  | otherError =>
    rw [hb] at hexec
    simp [runLoop, hexec, JobBehavior.recoverable]
  | cabRuntimeError =>
    obtain ⟨st, hst, _, _⟩ := stepOf_of_wellFormed j 1 "failed" hwf
    rw [hb] at hexec
    simp [runLoop, hexec, log2recipe_of_stepOf j ⟨nm, []⟩ 1 "failed" st hst,
      appendRemaining, JobBehavior.recoverable]
  | recipeExecError =>
    obtain ⟨st, hst, _, _⟩ := stepOf_of_wellFormed j 1 "failed" hwf
    rw [hb] at hexec
    simp [runLoop, hexec, log2recipe_of_stepOf j ⟨nm, []⟩ 1 "failed" st hst,
      appendRemaining, JobBehavior.recoverable]
  | cabParamError =>
    obtain ⟨st, hst, _, _⟩ := stepOf_of_wellFormed j 1 "failed" hwf
    rw [hb] at hexec
    simp [runLoop, hexec, log2recipe_of_stepOf j ⟨nm, []⟩ 1 "failed" st hst,
      appendRemaining, JobBehavior.recoverable]

/-- C3 amended witness: the single parameter-error job. -/
theorem run_c3_amended_witness :
    (((Recipe.run wAllOk ⟨"r", [jobParamFail], none⟩ none false none).outcome
        = .pipelineException [] jobParamFail []) ∧
      ((Recipe.run wAllOk ⟨"r", [jobParamFail], none⟩ none false none).persisted).isSome = true)
    ↔ (jobParamFail.behavior wAllOk).recoverable = true :=
  run_c3_amended wAllOk "r" none jobParamFail (by decide)

/-- C4 counterexample: with resume=true and caller steps = [3] over
loadedRec (step 1 completed, steps 2 and 3 pending), run executes
positions 2 and 3, not only 3 — the caller's steps argument is not
honored as a filter; with redo and caller steps = [2], run executes
only position 2 of the rebuilt list — the caller's steps argument is
not ignored.  Both halves of the claim fail. -/
theorem run_c4_counterexample :
    ((Recipe.run wAllOk recipeResume (some [.int 3]) true none).executed.map Prod.fst
        = [2, 3] ∧ ([2, 3] : List Int) ≠ [3]) ∧
    ((Recipe.run wAllOk recipeABC (some [.int 2]) false (some redoRec)).executed.map Prod.fst
        = [2] ∧ ([2] : List Int) ≠ [1, 2]) := by
  decide

/-- C4 amended: the two recovery modes treat the caller's steps
argument the opposite way from the claim — under resume=true the
caller's steps argument is ignored entirely (run's result does not
depend on it), and under redo the steps argument is still applied: run
proceeds with the shared resolve-and-execute tail over the rebuilt job
list and the caller's steps. -/
theorem run_c4_amended (w : World) (r : Recipe) :
    (∀ s1 s2 : Option (List StepVal),
        Recipe.run w r s1 true none = Recipe.run w r s2 true none) ∧
    (∀ (rec0 : RecipeRecord) (jobs2 : List StimelaJob)
        (steps0 : Option (List StepVal)) (resume : Bool),
        rebuildJobs w rec0.steps = .ok jobs2 →
        Recipe.run w r steps0 resume (some rec0)
          = runResolved w jobs2 rec0 steps0) := by
  constructor
  · intro s1 s2
    rfl
  · intro rec0 jobs2 steps0 resume hrb
    simp [Recipe.run, hrb]

/-- C4 amended witness: concrete resume and redo runs. -/
theorem run_c4_amended_witness :
    Recipe.run wAllOk recipeResume (some [.int 3]) true none
      = Recipe.run wAllOk recipeResume none true none ∧
    Recipe.run wAllOk recipeABC (some [.int 2]) false (some redoRec)
      = runResolved wAllOk redoJobs redoRec (some [.int 2]) :=
  ⟨(run_c4_amended wAllOk recipeResume).1 (some [.int 3]) none,
   (run_c4_amended wAllOk recipeABC).2 redoRec redoJobs (some [.int 2]) false rfl⟩

/-- C5: on run(resume=true), when every step of the loaded record is
already completed, run exits via sys.exit(0) — cleanly, without raising
any error — having executed no job and persisted nothing. -/
theorem run_c5_resume_noop (w : World) (r : Recipe) (loaded : RecipeRecord)
    (steps0 : Option (List StepVal))
    (hfile : r.resumeFileContent = some loaded)
    (hall : ∀ s ∈ loaded.steps, s.status = "completed") :
    Recipe.run w r steps0 true none = ⟨[], none, .sysExit 0⟩ := by
  have hpart := resumePartition_all_completed r.jobs loaded.steps [] [] hall
  simp [Recipe.run, hfile, hpart]

/-- C5 witness: a record with both steps completed. -/
theorem run_c5_resume_noop_witness :
    Recipe.run wAllOk recipeDone none true none = ⟨[], none, .sysExit 0⟩ :=
  run_c5_resume_noop wAllOk recipeDone loadedAllDone none (by decide) (by decide)

/-- C6: for a steps argument that is a list S of valid integer
positions (each between 1 and N) over a recipe of well-formed,
succeeding jobs, run invokes exactly the jobs at those literal 1-based
positions, in the order listed in S, repeats included — no
deduplication and no sorting — and each invoked pair is the job list
subscripted at position minus one. -/
theorem run_c6_int_steps (w : World) (r : Recipe) (S : List Int)
    (hok : ∀ j ∈ r.jobs, j.wellFormed = true ∧ j.behavior w = .ok)
    (hrange : ∀ n ∈ S, 1 ≤ n ∧ n ≤ (r.jobs.length : Int)) :
    (Recipe.run w r (some (S.map StepVal.int)) false none).executed.map Prod.fst = S ∧
    ∀ q ∈ (Recipe.run w r (some (S.map StepVal.int)) false none).executed,
      pyIndex r.jobs (q.1 - 1) = some q.2 := by
  obtain ⟨pairs, hp, hfst, hmem⟩ := buildPairs_ints r.jobs S
    (fun n hn => pyIndex_of_range r.jobs n (hrange n hn).1 (hrange n hn).2)
  obtain ⟨recFin, hrun, _⟩ := runLoop_all_ok w pairs ⟨r.name, []⟩ [] []
    (fun q hq => hok q.2 (pyIndex_mem r.jobs (q.1 - 1) q.2 (hmem q hq)))
  cases S with
  | nil =>
    have hempty : (Recipe.run w r (some (([] : List Int).map StepVal.int))
        false none).executed = [] := rfl
    refine ⟨by rw [hempty]; rfl, ?_⟩
    intro q hq
    rw [hempty] at hq
    simp at hq
  | cons n S2 =>
    have hres : resolveSteps r.jobs (some ((n :: S2).map StepVal.int))
        = .ok ((n :: S2).map StepVal.int) := rfl
    have hrr : Recipe.run w r (some ((n :: S2).map StepVal.int)) false none
        = ⟨pairs, some recFin, .success⟩ := by
      rw [run_plain]
      simp only [runResolved, hres, hp]
      rw [hrun]
      simp
    rw [hrr]
    exact ⟨hfst, fun q hq => hmem q hq⟩

/-- C6 witness: steps [3, 1, 3] with a deliberate repeat and reversed
order. -/
theorem run_c6_int_steps_witness :
    (Recipe.run wAllOk recipeResume (some ([3, 1, 3].map StepVal.int)) false none).executed.map
        Prod.fst = [3, 1, 3] ∧
    ∀ q ∈ (Recipe.run wAllOk recipeResume (some ([3, 1, 3].map StepVal.int)) false none).executed,
      pyIndex recipeResume.jobs (q.1 - 1) = some q.2 :=
  run_c6_int_steps wAllOk recipeResume [3, 1, 3] (by decide) (by decide)

/-- C7: for a steps argument that is a list of label strings, each
label is resolved against the current job list's label parts before any
"::" separator; when some label matches no job (and the labels listed
before it are all resolvable), run raises StimelaCabParameterError
naming that offending label, persists nothing and executes no job. -/
theorem run_c7_unresolvable_label (w : World) (r : Recipe) (s : String)
    (L1 L2 : List StepVal)
    (h1 : ∀ v ∈ L1, resolvableStr (jobsLabels r.jobs) v = true)
    (h2 : pyIndexOf (jobsLabels r.jobs) s = none) :
    Recipe.run w r (some (L1 ++ StepVal.str s :: L2)) false none
      = ⟨[], none, .cabParameterError s⟩ := by
  have herr := resolveLabels_err (jobsLabels r.jobs) s h2 L1 L2 h1
  rw [run_plain]
  cases L1 with
  | nil =>
    simp only [List.nil_append] at herr ⊢
    simp [runResolved, resolveSteps, herr]
  | cons v L1b =>
    have hv := h1 v (by simp)
    cases v with
    | int n => simp [resolvableStr] at hv
    | str s1 =>
      simp only [List.cons_append] at herr ⊢
      simp [runResolved, resolveSteps, herr]

/-- C7 witness: label Q occurs in no job of the recipe. -/
theorem run_c7_unresolvable_label_witness :
    Recipe.run wAllOk recipeResume
        (some ([StepVal.str "A"] ++ StepVal.str "Q" :: [StepVal.str "C"])) false none
      = ⟨[], none, .cabParameterError "Q"⟩ :=
  run_c7_unresolvable_label wAllOk recipeResume "Q" [StepVal.str "A"] [StepVal.str "C"]
    (by decide) (by decide)

/-- C8 counterexample: a singularity-backed job is written to the
persisted record with jtype docker, not its backend kind
singularity. -/
theorem log2recipe_c8_counterexample :
    (log2recipe jobSing ⟨"r", []⟩ 1 "completed").map
        (fun rc => rc.steps.map (fun st => st.jtype)) = some ["docker"] ∧
    jobSing.jtype = "singularity" ∧ ("docker" : String) ≠ "singularity" := by
  decide

/-- Helper: the jtype field log2recipe writes, by branch. -/
theorem stepOf_jtype (job : StimelaJob) (num : Int) (status : String)
    (st : StepRecord) (h : stepOf job num status = some st) :
    st.jtype = if containerKinds.contains job.jtype then "docker" else "function" := by
  unfold stepOf at h
  by_cases hc : containerKinds.contains job.jtype = true
  · rw [if_pos hc] at h
    rw [if_pos hc]
    cases hp : job.payload with
    | contP c =>
      rw [hp] at h
      injection h with h
      rw [← h]
    | funcP f p =>
      rw [hp] at h
      simp at h
  · rw [if_neg hc] at h
    rw [if_neg hc]
    cases hp : job.payload with
    | funcP f p =>
      rw [hp] at h
      injection h with h
      rw [← h]
    | contP c =>
      rw [hp] at h
      simp at h

/-- C8 amended: every step record appended by log2recipe for a job of a
container kind carries the literal jtype docker regardless of which
backend kind the job uses, and every step written through the
in-process-callable branch carries jtype function. -/
theorem log2recipe_c8_amended (job : StimelaJob) (rec rec2 : RecipeRecord)
    (num : Int) (status : String)
    (h : log2recipe job rec num status = some rec2) :
    rec2.steps.getLast?.map (fun st => st.jtype)
      = some (if containerKinds.contains job.jtype then "docker" else "function") := by
  unfold log2recipe at h
  rcases hst : stepOf job num status with _ | st
  · rw [hst] at h
    simp at h
  · rw [hst] at h
    simp at h
    rw [← h]
    dsimp only
    rw [List.getLast?_concat]
    simp [stepOf_jtype job num status st hst]

/-- C8 amended witness: the singularity job's record. -/
theorem log2recipe_c8_amended_witness :
    recSingOut.steps.getLast?.map (fun st => st.jtype)
      = some (if containerKinds.contains jobSing.jtype then "docker" else "function") :=
  log2recipe_c8_amended jobSing ⟨"r", []⟩ recSingOut 1 "completed" rfl

/-- C9: calling run with steps bound to an empty list crashes with an
uncaught IndexError raised while inspecting steps[0] to choose between
the integer and the label interpretation — not with one of the
structured error kinds — and executes no job and persists nothing. -/
theorem run_c9_empty_steps (w : World) (r : Recipe) :
    Recipe.run w r (some []) false none = ⟨[], none, .pyCrash "IndexError"⟩ := rfl

/-- C10: when several jobs share the same label part before the "::"
separator, a label string in the steps argument always resolves to the
lowest matching 1-based position — the first index holds the label and
every smaller index does not — and every occurrence of that label in
the resolved steps list maps to that same first position. -/
theorem resolveSteps_c10_first_index (jobs : List StimelaJob) (s0 s : String)
    (t vals : List StepVal) (i0 k : Nat)
    (hfirst : pyIndexOf (jobsLabels jobs) s = some i0)
    (hres : resolveSteps jobs (some (StepVal.str s0 :: t)) = .ok vals)
    (hk : (StepVal.str s0 :: t).get? k = some (.str s)) :
    vals.get? k = some (.int ((i0 : Int) + 1)) ∧
    (jobsLabels jobs).get? i0 = some s ∧
    ∀ m, m < i0 → (jobsLabels jobs).get? m ≠ some s := by
  have hres2 : resolveLabels (jobsLabels jobs) (StepVal.str s0 :: t) = .ok vals := hres
  exact ⟨resolveLabels_get (jobsLabels jobs) s i0 hfirst _ vals k hres2 hk,
    pyIndexOf_get (jobsLabels jobs) s i0 hfirst,
    pyIndexOf_first (jobsLabels jobs) s i0 hfirst⟩

/-- C10 witness: two jobs share label head L; both occurrences of L in
the steps list resolve to position 1. -/
theorem resolveSteps_c10_first_index_witness :
    ([StepVal.int 1, StepVal.int 3, StepVal.int 1].get? 2
        = some (.int (((0 : Nat) : Int) + 1))) ∧
    (jobsLabels recipeDupLabels.jobs).get? 0 = some "L" ∧
    ∀ m, m < 0 → (jobsLabels recipeDupLabels.jobs).get? m ≠ some "L" :=
  resolveSteps_c10_first_index recipeDupLabels.jobs "L" "L"
    [StepVal.str "M", StepVal.str "L"] [StepVal.int 1, StepVal.int 3, StepVal.int 1]
    0 2 (by decide) rfl (by decide)
